import Mathlib

/-!
Verification of the cookie-guardian policy engine (src/background.js and
src/encryption.js), shallowly embedded in Lean.

Conventions of the embedding:
* JavaScript strings are `String`, char lists are `List Char`.
* Timestamps: `now` is `Date.now()` in milliseconds, a `Nat`; cookie
  `expirationDate` is epoch seconds, `Option Nat` (`none` = the property is
  absent, mirroring a session cookie).
* JavaScript truthiness on the values the source tests is made explicit
  (`jsTruthyNum`, `jsTruthyStr`): `0`, `undefined` and `""` are falsy.
* Host-side operations (cookie-jar writes/deletes, envelope persistence) are
  recorded as an explicit `Effect` list instead of being performed; the
  in-memory audit log is the `auditLog` field of `EngineState`, as the
  source treats the in-memory array as the source of truth.
* `crypto.subtle` AES-GCM is modelled symbolically: a ciphertext is an
  opaque term recording the key, the nonce and the plaintext, and
  decryption succeeds exactly when the authenticating key and nonce of the
  call match those of the encryption. A rejected `crypto.subtle.decrypt`
  promise (authentication failure) is `none`.
-/

namespace CookieGuardian

/-! ### JavaScript string primitives -/

/-- Truthiness of an optional JS number: `undefined` and `0` are falsy. -/
def jsTruthyNum : Option Nat → Bool
  | none => false
  | some n => n != 0

/-- Truthiness of a JS string: the empty string is falsy. -/
def jsTruthyStr (s : String) : Bool := s.length != 0

/-- Is the first list a prefix of the second? -/
def hasPrefixL : List Char → List Char → Bool
  | [], _ => true
  | _ :: _, [] => false
  | a :: as, b :: bs => a == b && hasPrefixL as bs

/-- Embedding of `String.prototype.startsWith`. -/
def jsStartsWith (s pre : String) : Bool := hasPrefixL pre.data s.data

/-- Does `needle` occur as a contiguous sublist of `haystack`? -/
def hasInfixL (needle : List Char) : List Char → Bool
  | [] => needle.isEmpty
  | c :: rest => hasPrefixL needle (c :: rest) || hasInfixL needle rest

/-- Embedding of `String.prototype.includes`. -/
def jsIncludes (s sub : String) : Bool := hasInfixL sub.data s.data

/-- Embedding of `pattern.replace(/\*/g, '.*')` from
`applyWhitelistBlacklist`: every `*` becomes the two characters `.*`,
every other character is passed through unchanged (nothing is escaped). -/
def jsReplaceStar (p : String) : String :=
  ⟨p.data.foldr (fun c acc => if c = '*' then '.' :: '*' :: acc else c :: acc) []⟩

/-! ### Regular-expression engine

Model of the host `RegExp` as used by the source: `new RegExp(compiled)`
followed by an unanchored `.test(domain)`.  The engine covers the fragment
the glob-style list patterns compile into — literal characters, `.`
(any single character) and `X*` (the source only ever produces `.*`, via
the star replacement) plus alternation, which the built-in site rules use
(`/(bank|credit|paypal|stripe)/i` etc.).  A compiled pattern outside the
fragment fails to parse (`none`), which the caller treats like the
source's try/catch around an invalid `RegExp`: the pattern is skipped. -/

inductive Rx where
  | emp : Rx
  | eps : Rx
  | dot : Rx
  | ch (c : Char) : Rx
  | star (r : Rx) : Rx
  | cat (a b : Rx) : Rx
  | alt (a b : Rx) : Rx
deriving DecidableEq

/-- Does the expression accept the empty string? -/
def Rx.nullable : Rx → Bool
  | .emp => false
  | .eps => true
  | .dot => false
  | .ch _ => false
  | .star _ => true
  | .cat a b => a.nullable && b.nullable
  | .alt a b => a.nullable || b.nullable

/-- Brzozowski derivative with respect to one character. -/
def Rx.deriv : Rx → Char → Rx
  | .emp, _ => .emp
  | .eps, _ => .emp
  | .dot, _ => .eps
  | .ch c, d => if c = d then .eps else .emp
  | .star r, d => .cat (r.deriv d) (.star r)
  | .cat a b, d => if a.nullable then .alt (.cat (a.deriv d) b) (b.deriv d) else .cat (a.deriv d) b
  | .alt a b, d => .alt (a.deriv d) (b.deriv d)

/-- Does the expression match some prefix of the list? -/
def matchesPrefix (r : Rx) : List Char → Bool
  | [] => r.nullable
  | c :: cs => r.nullable || matchesPrefix (r.deriv c) cs

/-- Unanchored match, the semantics of `regex.test(s)`: the expression
matches some substring of `s`. -/
def testRx (r : Rx) : List Char → Bool
  | [] => r.nullable
  | c :: cs => matchesPrefix r (c :: cs) || testRx r cs

/-- Characters parsed as regex literals (the conservative fragment). -/
def isLitChar (c : Char) : Bool :=
  c.isAlpha || c.isDigit || c = '-' || c = '_' || c = '/' || c = ':'

/-- Parse a compiled pattern string into the regex fragment.  `.*` (the
image of a glob `*`) becomes `(any)*`, a lone `.` becomes the any-character
matcher, literals match themselves; anything else is out of fragment. -/
def parseRxAux : List Char → Option Rx
  | [] => some .eps
  | '.' :: '*' :: rest => (parseRxAux rest).map (fun r => .cat (.star .dot) r)
  | '.' :: rest => (parseRxAux rest).map (fun r => .cat .dot r)
  | c :: rest => if isLitChar c then (parseRxAux rest).map (fun r => .cat (.ch c) r) else none

def parseRx (s : String) : Option Rx := parseRxAux s.data

/-- One whitelist/blacklist pattern test from `applyWhitelistBlacklist`:
compile with the star replacement, then run an unanchored test against the
domain.  A pattern that does not compile is skipped (the catch branch),
i.e. treated as not matching. -/
def patternMatches (p domain : String) : Bool :=
  match parseRx (jsReplaceStar p) with
  | some r => testRx r domain.data
  | none => false

/-- Regex matching a literal word. -/
def strRx (s : String) : Rx := s.data.foldr (fun c r => .cat (.ch c) r) .eps

/-! ### Encryption subsystem (src/encryption.js)

`CookieEncryption` holds a single AES-GCM key (`this.key`).  The
`crypto.subtle` primitives are modelled symbolically: `subtleEncrypt`
produces an opaque ciphertext term recording the key, the 96-bit nonce and
the plaintext; `subtleDecrypt` authenticates and returns the plaintext
exactly when both the key and nonce of the call match the ones recorded at
encryption, and `none` otherwise (a rejected promise in the source). -/

structure AesKey where
  raw : Nat
deriving DecidableEq

inductive CipherText where
  | mk (key : AesKey) (iv : Nat) (plain : String) : CipherText
deriving DecidableEq

def subtleEncrypt (k : AesKey) (iv : Nat) (data : String) : CipherText :=
  .mk k iv data

def subtleDecrypt (k : AesKey) (iv : Nat) (ct : CipherText) : Option String :=
  match ct with
  | .mk k' iv' p => if k = k' ∧ iv = iv' then some p else none

/-- The envelope returned by `encryptCookie`: base64 ciphertext, base64 iv
(the symbolic values stand in for the encodings), the domain and
`Date.now()`. -/
structure Envelope where
  encrypted : CipherText
  iv : Nat
  domain : String
  timestamp : Nat
deriving DecidableEq

/-- `encryptCookie(value, domain)` with the active key `k`, the freshly
drawn random nonce `iv` and the current time `now` made explicit inputs. -/
def encryptCookie (k : AesKey) (iv now : Nat) (value domain : String) : Envelope :=
  { encrypted := subtleEncrypt k iv value, iv := iv, domain := domain, timestamp := now }

/-- `decryptCookie(encryptedData)` with the active key `k` explicit. -/
def decryptCookie (k : AesKey) (env : Envelope) : Option String :=
  subtleDecrypt k env.iv env.encrypted

/-- The mutable state of the `CookieEncryption` module: its active key. -/
structure EncryptionModule where
  key : AesKey
deriving DecidableEq

/-- `generateNewKey()`: replaces the active key with a freshly generated
one (the fresh randomness is an explicit input) and persists it. -/
def generateNewKey (fresh : AesKey) (_m : EncryptionModule) : EncryptionModule :=
  { key := fresh }

/-! ### Engine data model (src/background.js) -/

/-- A cookie as delivered by the host cookie jar. -/
structure Cookie where
  name : String
  domain : String
  path : String
  value : String
  secure : Bool
  httpOnly : Bool
  expirationDate : Option Nat
deriving DecidableEq

/-- A site-rule `pattern` property: a host `RegExp` literal, possibly with
the `i` flag (the built-in rules use `/(bank|...)/i`). -/
structure RulePattern where
  rx : Rx
  ignoreCase : Bool
deriving DecidableEq

/-- One entry of `this.siteRules`.  `expiration` is in minutes. -/
structure Rule where
  expiration : Option Nat := none
  encrypt : Bool := false
  pattern : Option RulePattern := none
  priority : String := "medium"
deriving DecidableEq

/-- Lowercasing, written over the character list so that the kernel can
evaluate it. -/
def jsToLower (s : String) : String := ⟨s.data.map Char.toLower⟩

/-- `rule.pattern && rule.pattern.test(domain)`: the `i` flag is modelled
by lowercasing the domain (the built-in pattern words are lowercase). -/
def rulePatternTest (r : Rule) (domain : String) : Bool :=
  match r.pattern with
  | none => false
  | some p => testRx p.rx (if p.ignoreCase then jsToLower domain else domain).data

/-- A per-domain whitelist override rule from the `whitelistRules` side
table (shape used by `applyWhitelistRule`: `expiration` minutes and
`encrypt`). -/
structure WRule where
  expiration : Option Nat := none
  encrypt : Bool := false
deriving DecidableEq

/-- An audit-log record.  `logCookieChange` builds the change shape
(`timestamp, cookie, domain, changeType, value`); `logAudit` builds the
action shape (`timestamp, action, ...details`), with the spread details as
a key/value list (non-string detail values are rendered with `toString`). -/
inductive AuditEntry where
  | change (timestamp : Nat) (cookie domain changeType value : String) : AuditEntry
  | action (timestamp : Nat) (action : String) (details : List (String × String)) : AuditEntry
deriving DecidableEq

/-- Host-side operations the engine performs, recorded instead of run.
`rawOverrideApplied` marks the corner where the source passes the raw
stored `whitelistRules` table object itself into `applyWhitelistRule`
(reachable only for a cookie whose domain is the literal string
`"whitelistRules"`, see `fetchedOverride`). -/
inductive Effect where
  | cookieRemove (url name : String) : Effect
  | cookieSet (c : Cookie) : Effect
  | envelopeStore (key : String) (env : Envelope) : Effect
  | rawOverrideApplied (table : List (String × WRule)) : Effect
deriving DecidableEq

/-- The engine's in-memory state together with the two persisted pieces the
cookie-change path reads: the active encryption key (`none` when the
encryption module failed to initialize, i.e. `this.encryption` is null)
and the `whitelistRules` storage entry (`none` when never written). -/
structure EngineState where
  auditLog : List AuditEntry
  siteRules : List (String × Rule)
  whitelist : List String
  blacklist : List String
  encryptionKey : Option AesKey
  whitelistRulesStored : Option (List (String × WRule))
deriving DecidableEq

/-- A `chrome.cookies.onChanged` payload. -/
structure ChangeInfo where
  cookie : Cookie
  removed : Bool
  cause : String
deriving DecidableEq

/-- `getDefaultRules()`. -/
def defaultSiteRules : List (String × Rule) :=
  [("*", { expiration := some 30, encrypt := false, priority := "medium" }),
   ("banking",
    { expiration := some 15, encrypt := true,
      pattern := some ⟨.alt (strRx "bank") (.alt (strRx "credit") (.alt (strRx "paypal") (strRx "stripe"))), true⟩,
      priority := "high" }),
   ("social",
    { expiration := some 60, encrypt := false,
      pattern := some ⟨.alt (strRx "facebook") (.alt (strRx "twitter") (.alt (strRx "instagram") (strRx "linkedin"))), true⟩,
      priority := "medium" }),
   ("shopping",
    { expiration := some 120, encrypt := false,
      pattern := some ⟨.alt (strRx "amazon") (.alt (strRx "ebay") (.alt (strRx "shopify") (strRx "alibaba"))), true⟩,
      priority := "medium" })]

/-! ### Audit log -/

/-- The shared append discipline of `logAudit` and `logCookieChange`:
`unshift` the new entry (newest first), then truncate with
`slice(0, 1000)` whenever the length exceeds 1000. -/
def appendAudit (e : AuditEntry) (log : List AuditEntry) : List AuditEntry :=
  let l' := e :: log
  if l'.length > 1000 then l'.take 1000 else l'

/-- Number of `BLACKLIST_DELETED` entries in a log. -/
def countBlacklistDeleted (log : List AuditEntry) : Nat :=
  log.countP fun e =>
    match e with
    | .action _ a _ => a == "BLACKLIST_DELETED"
    | _ => false

/-- The value summary `logCookieChange` stores: falsy value becomes
`"empty"`, values longer than 50 characters are cut to 50 plus `"..."`. -/
def summarizeValue (v : String) : String :=
  if jsTruthyStr v then (if v.length > 50 then ⟨v.data.take 50⟩ ++ "..." else v) else "empty"

/-- The entry `logCookieChange` prepends for every change event. -/
def logCookieChangeEntry (now : Nat) (ci : ChangeInfo) : AuditEntry :=
  .change now ci.cookie.name ci.cookie.domain
    (if ci.removed then "REMOVED" else ci.cause)
    (summarizeValue ci.cookie.value)

/-! ### List filter (`applyWhitelistBlacklist`) -/

/-- The URL built for `chrome.cookies.remove`:
`http${secure ? 's' : ''}://${domain}${path}`. -/
def cookieUrl (c : Cookie) : String :=
  (if c.secure then "https" else "http") ++ "://" ++ c.domain ++ c.path

/-- First pattern of the stored list whose compiled glob matches the
domain (patterns that fail to compile are skipped by the catch branch). -/
def firstMatch (patterns : List String) (domain : String) : Option String :=
  patterns.find? fun p => patternMatches p domain

/-- Result of `whitelistRules[cookie.domain]` in the source.
`chrome.storage.local.get(['whitelistRules'])` resolves to the wrapper
object `{ whitelistRules: table }` (or `{}` when the key was never
written), and the source indexes this wrapper — not the table — by
`cookie.domain`.  The only key the wrapper can have is the literal string
`"whitelistRules"`, whose value is the raw table object; every other
domain reads `undefined`. -/
inductive FetchedOverride where
  | absent : FetchedOverride
  | tableObj (t : List (String × WRule)) : FetchedOverride
deriving DecidableEq

def fetchedOverride (stored : Option (List (String × WRule))) (domain : String) : FetchedOverride :=
  match stored with
  | none => .absent
  | some t => if domain = "whitelistRules" then .tableObj t else .absent

/-- JS object property lookup on a string-keyed record. -/
def jsLookup {α : Type} (l : List (String × α)) (k : String) : Option α :=
  (l.find? fun kv => kv.1 == k).map (fun kv => kv.2)

/-- `applyWhitelistRule(cookie, rule)`: a fresh copy of the cookie gets a
new expiration when `rule.expiration` is truthy; when `rule.encrypt` and
the encryption module are available the value is encrypted, the envelope
persisted under `encrypted_<domain>_<name>`, the value replaced by the
sentinel and an `ENCRYPTED` (`whitelist_rule`) entry appended; finally the
cookie is always written back through `chrome.cookies.set`. -/
def applyWhitelistRule (st : EngineState) (c : Cookie) (r : WRule) (now iv : Nat) :
    List AuditEntry × List Effect :=
  let c1 := if jsTruthyNum r.expiration then
              { c with expirationDate := some ((now + r.expiration.getD 0 * 60 * 1000) / 1000) }
            else c
  match st.encryptionKey with
  | some k =>
    if r.encrypt then
      (appendAudit (.action now "ENCRYPTED"
          [("cookie", c.name), ("domain", c.domain), ("type", "whitelist_rule")]) st.auditLog,
       [Effect.envelopeStore ("encrypted_" ++ c.domain ++ "_" ++ c.name)
          (encryptCookie k iv now c.value c.domain),
        Effect.cookieSet { c1 with value := "ENCRYPTED_REF_" ++ c.domain ++ "_" ++ c.name }])
    else (st.auditLog, [Effect.cookieSet c1])
  | none => (st.auditLog, [Effect.cookieSet c1])

/-- The three-valued return of `applyWhitelistBlacklist`:
`false` (blocked), `true` (allowed), `null` (undecided). -/
inductive ListDecision where
  | blocked : ListDecision
  | allowed : ListDecision
  | undecided : ListDecision
deriving DecidableEq

/-- `applyWhitelistBlacklist(cookie)`: blacklist first — the first
matching pattern deletes the cookie and appends a `BLACKLIST_DELETED`
entry carrying the pattern; otherwise the whitelist is scanned the same
way and, on a match, the (mis-)fetched per-domain override is applied when
truthy; no match in either list decides nothing. -/
def applyWhitelistBlacklist (st : EngineState) (c : Cookie) (now : Nat) :
    ListDecision × List AuditEntry × List Effect :=
  match firstMatch st.blacklist c.domain with
  | some p =>
      (.blocked,
       appendAudit (.action now "BLACKLIST_DELETED"
          [("cookie", c.name), ("domain", c.domain), ("pattern", p)]) st.auditLog,
       [Effect.cookieRemove (cookieUrl c) c.name])
  | none =>
    match firstMatch st.whitelist c.domain with
    | some _ =>
      match fetchedOverride st.whitelistRulesStored c.domain with
      | .absent => (.allowed, st.auditLog, [])
      | .tableObj t => (.allowed, st.auditLog, [Effect.rawOverrideApplied t])
    | none => (.undecided, st.auditLog, [])

/-! ### Rule resolver (`applyRules`) -/

/-- The `for (const [key, rule] of Object.entries(this.siteRules))` loop:
insertion order, skipping `*`; for each rule, the pattern test is tried
first and then the key-as-substring test, and the first rule matching
either way is taken (`break`). -/
def resolveLoop (domain : String) (dflt : Option Rule) : List (String × Rule) → Option Rule
  | [] => dflt
  | (k, r) :: rest =>
    if k = "*" then resolveLoop domain dflt rest
    else if rulePatternTest r domain then some r
    else if jsIncludes domain k then some r
    else resolveLoop domain dflt rest

/-- Rule resolution: `matchedRule` starts as `this.siteRules['*']` and the
loop above may replace it.  `none` means no rule at all was found (only
possible when the `*` entry is missing); the source would then crash with
a TypeError on `matchedRule.expiration`. -/
def applyRulesResolve (rules : List (String × Rule)) (domain : String) : Option Rule :=
  resolveLoop domain (jsLookup rules "*") rules

/-- The `RULE_APPLIED` entry (the source also spreads the matched rule
snapshot into the entry; it is rendered here by its scalar fields). -/
def ruleAppliedEntry (now : Nat) (c : Cookie) (r : Rule) : AuditEntry :=
  .action now "RULE_APPLIED"
    [("cookie", c.name), ("domain", c.domain),
     ("expiration", toString (r.expiration.getD 0)), ("rulePriority", r.priority)]

/-- `applyRules(cookie)`: resolve, then — only when the matched rule's
`expiration` is truthy and the cookie's `expirationDate` is falsy — write
the cookie back with expiration `Math.floor((Date.now() + minutes*60*1000)/1000)`
and append a `RULE_APPLIED` entry.  `none` models the TypeError thrown
when resolution found no rule (missing `*` entry, nothing matched). -/
def applyRules (st : EngineState) (c : Cookie) (now : Nat) :
    Option (List AuditEntry × List Effect) :=
  match applyRulesResolve st.siteRules c.domain with
  | none => none
  | some r =>
    if jsTruthyNum r.expiration && !(jsTruthyNum c.expirationDate) then
      some (appendAudit (ruleAppliedEntry now c r) st.auditLog,
            [Effect.cookieSet { c with expirationDate := some ((now + r.expiration.getD 0 * 60 * 1000) / 1000) }])
    else some (st.auditLog, [])

/-! ### Encryption pass (`applyEncryption`) -/

/-- The `shouldEncrypt` loop of `applyEncryption`: the `*` entry sets the
flag when its `encrypt` is set (and keeps iterating); a pattern match ends
the loop with that rule's `encrypt` value; a key-substring match ends the
loop only when that rule's `encrypt` is set. -/
def shouldEncryptLoop (domain : String) : List (String × Rule) → Bool → Bool
  | [], acc => acc
  | (k, r) :: rest, acc =>
    if k = "*" then shouldEncryptLoop domain rest (acc || r.encrypt)
    else if rulePatternTest r domain then r.encrypt
    else if jsIncludes domain k && r.encrypt then true
    else shouldEncryptLoop domain rest acc

def computeShouldEncrypt (rules : List (String × Rule)) (domain : String) : Bool :=
  shouldEncryptLoop domain rules false

/-- `applyEncryption(cookie)`: when the rules mark the domain for
encryption, the module is available, the value is truthy and the value
does not already start with the `ENCRYPTED_REF_` sentinel — encrypt,
persist the envelope under `encrypted_<domain>_<name>`, rewrite the cookie
with the sentinel value and append an `ENCRYPTED` (`auto_encryption`)
entry; otherwise do nothing at all. -/
def applyEncryption (st : EngineState) (c : Cookie) (now iv : Nat) :
    List AuditEntry × List Effect :=
  match st.encryptionKey with
  | none => (st.auditLog, [])
  | some k =>
    if computeShouldEncrypt st.siteRules c.domain && jsTruthyStr c.value
        && !(jsStartsWith c.value "ENCRYPTED_REF_") then
      (appendAudit (.action now "ENCRYPTED"
          [("cookie", c.name), ("domain", c.domain), ("type", "auto_encryption")]) st.auditLog,
       [Effect.envelopeStore ("encrypted_" ++ c.domain ++ "_" ++ c.name)
          (encryptCookie k iv now c.value c.domain),
        Effect.cookieSet { c with value := "ENCRYPTED_REF_" ++ c.domain ++ "_" ++ c.name }])
    else (st.auditLog, [])

/-! ### Cookie-change handler -/

/-- `handleCookieChange(changeInfo)`: log the change, run the list filter
(a blacklist hit returns early), then `applyRules` and `applyEncryption`
on the original cookie.  `none` propagates the rule-resolution TypeError. -/
def handleCookieChange (st : EngineState) (ci : ChangeInfo) (now iv : Nat) :
    Option (EngineState × List Effect) :=
  let st1 := { st with auditLog := appendAudit (logCookieChangeEntry now ci) st.auditLog }
  let wb := applyWhitelistBlacklist st1 ci.cookie now
  let st2 := { st1 with auditLog := wb.2.1 }
  match wb.1 with
  | .blocked => some (st2, wb.2.2)
  | _ =>
    match applyRules st2 ci.cookie now with
    | none => none
    | some ar =>
      let st3 := { st2 with auditLog := ar.1 }
      let enc := applyEncryption st3 ci.cookie now iv
      some ({ st3 with auditLog := enc.1 }, wb.2.2 ++ ar.2 ++ enc.2)

/-! ### Rule-map messages (`handleMessage`) -/

/-- `SAVE_RULE`: `this.siteRules[message.domain] = message.rule` — an
existing key is updated in place (its position is kept), a new key is
appended in insertion order. -/
def saveRule (rules : List (String × Rule)) (d : String) (r : Rule) : List (String × Rule) :=
  if rules.any (fun kv => kv.1 == d) then
    rules.map (fun kv => if kv.1 == d then (d, r) else kv)
  else rules ++ [(d, r)]

/-- `DELETE_RULE`: `delete this.siteRules[message.domain]`. -/
def deleteRule (rules : List (String × Rule)) (d : String) : List (String × Rule) :=
  rules.filter (fun kv => kv.1 != d)

/-! ### Spec-side resolution functions, for refinement comparison -/

/-- Follows the amended reading of resolution: one pass over the
non-default rules in insertion order, each rule matching by pattern or by
key-as-substring, first match wins, default `*` rule as fallback. -/
def specResolveSinglePass (rules : List (String × Rule)) (domain : String) : Option Rule :=
  match rules.find? (fun kv => kv.1 != "*" && (rulePatternTest kv.2 domain || jsIncludes domain kv.1)) with
  | some kv => some kv.2
  | none => jsLookup rules "*"

/-- Follows the claim's words: three tiers, first any non-default rule
whose pattern matches, then any non-default rule whose key is a substring
of the domain, and the default `*` rule only if no non-default rule
matches. -/
def claimTieredResolve (rules : List (String × Rule)) (domain : String) : Option Rule :=
  match rules.find? (fun kv => kv.1 != "*" && rulePatternTest kv.2 domain) with
  | some kv => some kv.2
  | none =>
    match rules.find? (fun kv => kv.1 != "*" && jsIncludes domain kv.1) with
    | some kv => some kv.2
    | none => jsLookup rules "*"

/-! ### Concrete fixtures for witnesses and counterexamples -/

/-- A state holding only the default rules and nothing else. -/
def baseState : EngineState :=
  { auditLog := [], siteRules := defaultSiteRules, whitelist := [], blacklist := [],
    encryptionKey := none, whitelistRulesStored := none }

/-- Rule map for the C2 counterexample: `"bank"` (substring key, inserted
first) and `"zz"` (whose pattern matches `mybank`, inserted later). -/
def c2RuleBank : Rule := { expiration := some 15, encrypt := true, priority := "high" }

def c2RuleZZ : Rule :=
  { expiration := some 99, encrypt := false, pattern := some ⟨strRx "mybank", false⟩ }

def c2Rules : List (String × Rule) :=
  [("*", { expiration := some 30 }), ("bank", c2RuleBank), ("zz", c2RuleZZ)]

/-- C3 failing input: a cookie on a domain no rule matches. -/
def c3Cookie : Cookie :=
  { name := "sess", domain := "nomatch.net", path := "/", value := "v",
    secure := false, httpOnly := false, expirationDate := none }

/-- C4 counterexample: a cookie that carries `expirationDate: 0`. -/
def c4Cookie : Cookie :=
  { name := "a", domain := "example.com", path := "/", value := "v",
    secure := false, httpOnly := false, expirationDate := some 0 }

/-- C9 failing input: a whitelisted domain with an override entry in the
stored `whitelistRules` table. -/
def c9Rule : WRule := { expiration := some 99, encrypt := false }

def c9State : EngineState :=
  { auditLog := [], siteRules := defaultSiteRules, whitelist := ["shop.example.com"],
    blacklist := [], encryptionKey := some ⟨0⟩,
    whitelistRulesStored := some [("shop.example.com", c9Rule)] }

def c9Cookie : Cookie :=
  { name := "sess", domain := "shop.example.com", path := "/", value := "v",
    secure := false, httpOnly := false, expirationDate := some 12345 }

/-- C1 witness fixture, the spec's own scenario:
blacklist `['*.ads.example.com']`, cookie domain `x.ads.example.com`. -/
def c1State : EngineState :=
  { baseState with blacklist := ["*.ads.example.com"], whitelist := ["x.ads.example.com"] }

def c1Cookie : Cookie :=
  { name := "ad", domain := "x.ads.example.com", path := "/", value := "trk",
    secure := false, httpOnly := false, expirationDate := none }

def c1Change : ChangeInfo := { cookie := c1Cookie, removed := false, cause := "explicit" }

/-- C7 witness fixtures: a rule map that marks everything for encryption,
a plaintext cookie and its already-substituted counterpart. -/
def c7State : EngineState :=
  { baseState with
    siteRules := [("*", ({ expiration := some 30, encrypt := true } : Rule))],
    encryptionKey := some ⟨1⟩ }

def c7Plain : Cookie :=
  { name := "tok", domain := "secret.example", path := "/", value := "topsecret",
    secure := false, httpOnly := false, expirationDate := some 5 }

def c7Sub : Cookie := { c7Plain with value := "ENCRYPTED_REF_secret.example_tok" }

/-! ## Helper lemmas -/

theorem appendAudit_eq_cons (e : AuditEntry) (l : List AuditEntry) (h : l.length ≤ 999) :
    appendAudit e l = e :: l := by
  simp only [appendAudit]
  rw [if_neg]
  simp only [List.length_cons]
  omega

theorem appendAudit_length (e : AuditEntry) (l : List AuditEntry) :
    (appendAudit e l).length ≤ 1000 := by
  simp only [appendAudit]
  split
  · simp [List.length_take_le 1000 _]
  · omega

theorem appendAudit_eq_take (e : AuditEntry) (l : List AuditEntry) :
    appendAudit e l = (e :: l).take 1000 := by
  simp only [appendAudit]
  split
  · rfl
  · rw [List.take_of_length_le]
    omega

theorem hasPrefixL_append (p t : List Char) : hasPrefixL p (p ++ t) = true := by
  induction p with
  | nil => rfl
  | cons a as ih => simp [hasPrefixL, ih]

theorem jsStartsWith_append (pre rest : String) : jsStartsWith (pre ++ rest) pre = true := by
  simpa [jsStartsWith, String.data_append] using hasPrefixL_append pre.data rest.data

theorem nullable_matchesPrefix (r : Rx) (l : List Char) (h : r.nullable = true) :
    matchesPrefix r l = true := by
  cases l with
  | nil => simpa [matchesPrefix] using h
  | cons c cs => simp [matchesPrefix, h]

theorem matchesPrefix_append (r : Rx) (l t : List Char) (h : matchesPrefix r l = true) :
    matchesPrefix r (l ++ t) = true := by
  induction l generalizing r with
  | nil => exact nullable_matchesPrefix r t (by simpa [matchesPrefix] using h)
  | cons c cs ih =>
    simp only [matchesPrefix, Bool.or_eq_true] at h
    rcases h with h | h
    · simp [matchesPrefix, h]
    · simp [matchesPrefix, ih _ h]

theorem nullable_testRx (r : Rx) (l : List Char) (h : r.nullable = true) :
    testRx r l = true := by
  cases l with
  | nil => simpa [testRx] using h
  | cons c cs => simp [testRx, matchesPrefix, h]

theorem testRx_append_right (r : Rx) (l t : List Char) (h : testRx r l = true) :
    testRx r (l ++ t) = true := by
  induction l with
  | nil => exact nullable_testRx r t (by simpa [testRx] using h)
  | cons c cs ih =>
    simp only [testRx, Bool.or_eq_true] at h
    rcases h with h | h
    · have := matchesPrefix_append r (c :: cs) t h
      simp only [List.cons_append] at this ⊢
      simp [testRx, this]
    · simp only [List.cons_append]
      simp [testRx, ih h]

theorem testRx_append_left (r : Rx) (pre l : List Char) (h : testRx r l = true) :
    testRx r (pre ++ l) = true := by
  induction pre with
  | nil => simpa using h
  | cons c cs ih =>
    simp only [List.cons_append]
    simp [testRx, ih]

/-! ## Claim theorems -/

/-- Claim C5: for every plaintext `v` and every domain `d` (and any nonce
and time), decrypting with the key that was active at encryption time
returns the original plaintext: `decryptCookie(encryptCookie(v, d)) = v`. -/
theorem c5_encrypt_decrypt_roundtrip (k : AesKey) (iv now : Nat) (v d : String) :
    decryptCookie k (encryptCookie k iv now v d) = some v := by
  simp [decryptCookie, encryptCookie, subtleDecrypt, subtleEncrypt]

/-- Claim C6: if the key is rotated (a fresh key generated and persisted
by `generateNewKey`) before decryption, `decryptCookie` on an envelope
produced under the previous key fails with an explicit failure result
(`none`, the rejected AES-GCM authentication), never returning garbage. -/
theorem c6_rotated_key_decrypt_fails (m : EncryptionModule) (fresh : AesKey)
    (iv now : Nat) (v d : String) (h : fresh ≠ m.key) :
    decryptCookie (generateNewKey fresh m).key (encryptCookie m.key iv now v d) = none := by
  simp [decryptCookie, encryptCookie, subtleDecrypt, subtleEncrypt, generateNewKey]
  intro hk
  exact absurd hk h

theorem c6_rotated_key_decrypt_fails_witness :
    (⟨1⟩ : AesKey) ≠ (⟨0⟩ : AesKey) ∧
    decryptCookie (generateNewKey ⟨1⟩ { key := ⟨0⟩ }).key
      (encryptCookie (⟨0⟩ : AesKey) 7 5 "v" "d") = none :=
  ⟨by decide, c6_rotated_key_decrypt_fails { key := ⟨0⟩ } ⟨1⟩ 7 5 "v" "d" (by decide)⟩

/-- Claim C8: starting from an audit log of length at most 1000, each
append goes through `appendAudit` (the shared `unshift` + `slice(0,1000)`
of `logAudit`/`logCookieChange`); one append keeps the length within 1000,
puts the new entry at index 0 and equals `take 1000` of the prepended list
(so exactly the oldest entries are dropped and the survivors keep their
relative order), and any sequence of appends keeps the length within
1000. -/
theorem c8_audit_log_bounded :
    (∀ (e : AuditEntry) (log : List AuditEntry), log.length ≤ 1000 →
        appendAudit e log = (e :: log).take 1000 ∧
        (appendAudit e log).head? = some e ∧
        (appendAudit e log).length ≤ 1000) ∧
    (∀ (es log : List AuditEntry), log.length ≤ 1000 →
        (es.foldl (fun l e => appendAudit e l) log).length ≤ 1000) := by
  constructor
  · intro e log h
    refine ⟨appendAudit_eq_take e log, ?_, appendAudit_length e log⟩
    rw [appendAudit_eq_take e log]
    simp
  · intro es
    induction es with
    | nil => intro log h; simpa using h
    | cons e rest ih =>
      intro log _
      simpa using ih (appendAudit e log) (appendAudit_length e log)

theorem c8_audit_log_bounded_witness :
    ([] : List AuditEntry).length ≤ 1000 ∧
    appendAudit (.action 1 "TAB_VISIT" []) [] = [.action 1 "TAB_VISIT" []] ∧
    ([.action 1 "TAB_VISIT" [], .action 2 "AUTO_DELETE" []].foldl
        (fun l e => appendAudit e l) []).length ≤ 1000 := by
  refine ⟨by decide, ?_, c8_audit_log_bounded.2 _ [] (by decide)⟩
  have h := (c8_audit_log_bounded.1 (.action 1 "TAB_VISIT" []) [] (by decide)).1
  simpa using h

/-- Claim C7: the policy-driven encryption substitution is idempotent.
Every cookie value `applyEncryption` ever writes starts with the
`ENCRYPTED_REF_` sentinel, and running `applyEncryption` on a cookie whose
value starts with the sentinel is a complete no-op — no encryption, no
envelope write, no cookie write, and no second `ENCRYPTED` audit entry. -/
theorem c7_encryption_idempotent :
    (∀ (st : EngineState) (c : Cookie) (now iv : Nat) (c' : Cookie),
        Effect.cookieSet c' ∈ (applyEncryption st c now iv).2 →
        jsStartsWith c'.value "ENCRYPTED_REF_" = true) ∧
    (∀ (st : EngineState) (c : Cookie) (now iv : Nat),
        jsStartsWith c.value "ENCRYPTED_REF_" = true →
        applyEncryption st c now iv = (st.auditLog, [])) := by
  constructor
  · intro st c now iv c' hmem
    rcases hk : st.encryptionKey with _ | k
    · simp [applyEncryption, hk] at hmem
    · by_cases hc : (computeShouldEncrypt st.siteRules c.domain && jsTruthyStr c.value
          && !(jsStartsWith c.value "ENCRYPTED_REF_")) = true
      · simp only [applyEncryption, hk, hc, if_true] at hmem
        simp only [List.mem_cons, List.not_mem_nil, or_false] at hmem
        rcases hmem with hmem | hmem
        · exact absurd hmem (by simp)
        · have hv : c' = { c with value := "ENCRYPTED_REF_" ++ c.domain ++ "_" ++ c.name } := by
            injection hmem
          rw [hv]
          show jsStartsWith ("ENCRYPTED_REF_" ++ c.domain ++ "_" ++ c.name) "ENCRYPTED_REF_" = true
          rw [String.append_assoc, String.append_assoc]
          exact jsStartsWith_append "ENCRYPTED_REF_" _
      · simp [applyEncryption, hk, hc] at hmem
  · intro st c now iv h
    rcases hk : st.encryptionKey with _ | k
    · simp [applyEncryption, hk]
    · simp [applyEncryption, hk, h]

theorem c7_encryption_idempotent_witness :
    Effect.cookieSet c7Sub ∈ (applyEncryption c7State c7Plain 5 7).2 ∧
    jsStartsWith c7Sub.value "ENCRYPTED_REF_" = true ∧
    applyEncryption c7State c7Sub 5 7 = (c7State.auditLog, []) :=
  ⟨by decide,
   c7_encryption_idempotent.1 c7State c7Plain 5 7 c7Sub (by decide),
   c7_encryption_idempotent.2 c7State c7Sub 5 7 (by decide)⟩

/-- Claim C1: when the cookie's domain matches a blacklist pattern (the
first matching pattern `p` in stored order), `handleCookieChange` deletes
the cookie through the host store, appends exactly one `BLACKLIST_DELETED`
entry carrying `p` (on top of the unconditional change-log entry), and
performs no rule application and no encryption processing — whatever the
whitelist contains.  The length bound keeps both appends below the
1000-entry truncation. -/
theorem c1_blacklist_precedence (st : EngineState) (ci : ChangeInfo) (now iv : Nat)
    (p : String)
    (hp : firstMatch st.blacklist ci.cookie.domain = some p)
    (hlen : st.auditLog.length ≤ 998) :
    handleCookieChange st ci now iv =
      some ({ st with auditLog :=
                (.action now "BLACKLIST_DELETED"
                    [("cookie", ci.cookie.name), ("domain", ci.cookie.domain), ("pattern", p)] ::
                  logCookieChangeEntry now ci :: st.auditLog) },
            [Effect.cookieRemove (cookieUrl ci.cookie) ci.cookie.name]) ∧
    countBlacklistDeleted
        (.action now "BLACKLIST_DELETED"
            [("cookie", ci.cookie.name), ("domain", ci.cookie.domain), ("pattern", p)] ::
          logCookieChangeEntry now ci :: st.auditLog) =
      countBlacklistDeleted st.auditLog + 1 := by
  have h1 : appendAudit (logCookieChangeEntry now ci) st.auditLog =
      logCookieChangeEntry now ci :: st.auditLog :=
    appendAudit_eq_cons _ _ (by omega)
  have h2 : appendAudit
        (.action now "BLACKLIST_DELETED"
          [("cookie", ci.cookie.name), ("domain", ci.cookie.domain), ("pattern", p)])
        (logCookieChangeEntry now ci :: st.auditLog) =
      .action now "BLACKLIST_DELETED"
          [("cookie", ci.cookie.name), ("domain", ci.cookie.domain), ("pattern", p)] ::
        logCookieChangeEntry now ci :: st.auditLog :=
    appendAudit_eq_cons _ _ (by simp; omega)
  constructor
  · simp only [handleCookieChange, applyWhitelistBlacklist, h1, hp, h2]
  · simp [countBlacklistDeleted, List.countP_cons, logCookieChangeEntry]

theorem c1_blacklist_precedence_witness :
    firstMatch c1State.blacklist c1Change.cookie.domain = some "*.ads.example.com" ∧
    c1State.auditLog.length ≤ 998 ∧
    handleCookieChange c1State c1Change 11 3 =
      some ({ c1State with auditLog :=
                [.action 11 "BLACKLIST_DELETED"
                   [("cookie", "ad"), ("domain", "x.ads.example.com"),
                    ("pattern", "*.ads.example.com")],
                 logCookieChangeEntry 11 c1Change] },
            [Effect.cookieRemove "http://x.ads.example.com/" "ad"]) :=
  ⟨by decide, by decide,
   by simpa using
     (c1_blacklist_precedence c1State c1Change 11 3 "*.ads.example.com"
       (by decide) (by decide)).1⟩

theorem resolveLoop_eq_find (domain : String) (dflt : Option Rule)
    (l : List (String × Rule)) :
    resolveLoop domain dflt l =
      match l.find? (fun kv => kv.1 != "*" && (rulePatternTest kv.2 domain || jsIncludes domain kv.1)) with
      | some kv => some kv.2
      | none => dflt := by
  induction l with
  | nil => rfl
  | cons kr rest ih =>
    rcases kr with ⟨k, r⟩
    by_cases hk : k = "*"
    · subst hk
      simp [resolveLoop, List.find?, ih]
    · have hb : (k != "*") = true := by simp [hk]
      by_cases hp : rulePatternTest r domain = true
      · simp [resolveLoop, List.find?, hk, hp, hb]
      · by_cases hi : jsIncludes domain k = true
        · simp [resolveLoop, List.find?, hk, hp, hi, hb]
        · simp [resolveLoop, List.find?, hk, hp, hi, hb, ih]

/-- Claim C2 (amended): resolution is a single pass over the rule entries
in insertion order — for each rule in turn the pattern regex is tried
first, then the key-as-substring test, and the first rule matching either
way wins; the default `*` rule is used only when no non-default rule
matches.  (The claim's reading as three global tiers is refuted by
`c2_tiered_resolution_counterexample`.) -/
theorem c2_resolution_single_pass (rules : List (String × Rule)) (domain : String) :
    applyRulesResolve rules domain = specResolveSinglePass rules domain := by
  unfold applyRulesResolve specResolveSinglePass
  exact resolveLoop_eq_find domain (jsLookup rules "*") rules

/-- Claim C2 counterexample: in `c2Rules` the rule keyed `"bank"` (a
substring of the domain, inserted first) beats the later-inserted rule
`"zz"` even though the latter's pattern matches the domain — the code
resolves the substring rule, while the claim mandates the
pattern-matching rule. -/
theorem c2_tiered_resolution_counterexample :
    rulePatternTest c2RuleZZ "mybank.de" = true ∧
    applyRulesResolve c2Rules "mybank.de" = some c2RuleBank ∧
    claimTieredResolve c2Rules "mybank.de" = some c2RuleZZ ∧
    c2RuleBank ≠ c2RuleZZ := by
  refine ⟨by decide, by decide, by decide, by decide⟩

/-- Claim C3: refuted on the code.  `DELETE_RULE` with domain `'*'` is not
guarded, so the reserved default rule is deleted from the map; afterwards
rule resolution finds no rule at all for a domain no non-default rule
matches (`applyRules` returns `none`, the modelled TypeError on
`matchedRule.expiration`). -/
theorem c3_delete_default_rule_breaks_invariant :
    jsLookup defaultSiteRules "*" =
      some ({ expiration := some 30, encrypt := false, priority := "medium" } : Rule) ∧
    jsLookup (deleteRule defaultSiteRules "*") "*" = none ∧
    applyRulesResolve (deleteRule defaultSiteRules "*") "nomatch.net" = none ∧
    applyRules { baseState with siteRules := deleteRule defaultSiteRules "*" }
      c3Cookie 1000 = none := by
  refine ⟨by decide, by decide, by decide, by decide⟩

/-- Claim C4 (amended): the set-cookie write-back happens exactly under
JavaScript truthiness — the resolved rule's `expiration` is nonzero and
the cookie's `expirationDate` is absent or zero.  When it happens, the
written expiration is `now/1000 + 60 * expirationMinutes` epoch seconds
(`now + expirationMinutes` up to the one-second floor) and one
`RULE_APPLIED` entry is appended; in every other case there is no write
and no entry. -/
theorem c4_rule_application (st : EngineState) (c : Cookie) (now : Nat) (r : Rule)
    (hres : applyRulesResolve st.siteRules c.domain = some r) :
    (jsTruthyNum r.expiration = true → jsTruthyNum c.expirationDate = false →
        applyRules st c now =
          some (appendAudit (ruleAppliedEntry now c r) st.auditLog,
                [Effect.cookieSet
                  { c with expirationDate := some (now / 1000 + r.expiration.getD 0 * 60) }])) ∧
    (jsTruthyNum r.expiration = false ∨ jsTruthyNum c.expirationDate = true →
        applyRules st c now = some (st.auditLog, [])) := by
  constructor
  · intro h1 h2
    have harith : (now + r.expiration.getD 0 * 60 * 1000) / 1000 =
        now / 1000 + r.expiration.getD 0 * 60 := by omega
    simp [applyRules, hres, h1, h2, harith]
  · intro h
    rcases h with h | h <;> simp [applyRules, hres, h]

theorem c4_rule_application_witness :
    applyRulesResolve baseState.siteRules c3Cookie.domain =
      some ({ expiration := some 30 } : Rule) ∧
    jsTruthyNum ({ expiration := some 30 } : Rule).expiration = true ∧
    jsTruthyNum c3Cookie.expirationDate = false ∧
    applyRules baseState c3Cookie 1000000 =
      some ([ruleAppliedEntry 1000000 c3Cookie ({ expiration := some 30 } : Rule)],
            [Effect.cookieSet { c3Cookie with expirationDate := some 2800 }]) :=
  ⟨by decide, by decide, by decide,
   by simpa [appendAudit] using
     (c4_rule_application baseState c3Cookie 1000000 ({ expiration := some 30 } : Rule)
       (by decide)).1 (by decide) (by decide)⟩

/-- Claim C4 counterexample: `c4Cookie` carries `expirationDate: 0`, so by
the claim no set-cookie write may happen — but the source's falsy test
`!cookie.expirationDate` treats it as absent and rewrites the cookie's
expiration (to `now/1000 + 30*60 = 2800` for the default rule). -/
theorem c4_zero_expiration_counterexample :
    c4Cookie.expirationDate = some 0 ∧
    applyRules baseState c4Cookie 1000000 =
      some ([ruleAppliedEntry 1000000 c4Cookie
               ({ expiration := some 30, encrypt := false, priority := "medium" } : Rule)],
            [Effect.cookieSet { c4Cookie with expirationDate := some 2800 }]) ∧
    (some 2800 : Option Nat) ≠ c4Cookie.expirationDate := by
  refine ⟨by decide, by decide, by decide⟩

/-- Claim C9: refuted on the code.  For a whitelisted domain whose
override entry is present in the stored `whitelistRules` table, the filter
does return `Allowed`, but the source indexes the `storage.get` wrapper
object instead of the table, fetches `undefined`, and never applies the
override — although `applyWhitelistRule` would have produced a cookie
write had it been reached. -/
theorem c9_whitelist_override_not_fetched :
    firstMatch c9State.whitelist c9Cookie.domain = some "shop.example.com" ∧
    jsLookup (c9State.whitelistRulesStored.getD []) c9Cookie.domain = some c9Rule ∧
    applyWhitelistBlacklist c9State c9Cookie 1000 = (.allowed, c9State.auditLog, []) ∧
    (applyWhitelistRule c9State c9Cookie c9Rule 1000 7).2 ≠ [] := by
  refine ⟨by decide, by decide, by decide, by decide⟩

/-- Claim C10: list-pattern compilation only rewrites `*` to `.*`
(star-free patterns are passed through verbatim, nothing is escaped), the
compiled regex is tested unanchored, so a literal `.` keeps its
any-character meaning — the pattern `ads.example.com` matches the domain
`adsXexampleXcom` — and a pattern that matches any substring of a domain
matches the whole domain. -/
theorem c10_pattern_compilation_semantics :
    jsReplaceStar "*.ads.example.com" = ".*.ads.example.com" ∧
    (∀ p : String, p.data.all (fun c => c != '*') = true → jsReplaceStar p = p) ∧
    patternMatches "ads.example.com" "adsXexampleXcom" = true ∧
    (∀ pat d1 d2 d3 : String, patternMatches pat d2 = true →
        patternMatches pat (d1 ++ d2 ++ d3) = true) := by
  refine ⟨by decide, ?_, by decide, ?_⟩
  · intro p h
    rcases p with ⟨l⟩
    simp only [jsReplaceStar]
    congr 1
    induction l with
    | nil => rfl
    | cons c cs ih =>
      simp only [List.all_cons, Bool.and_eq_true, bne_iff_ne] at h
      simp only [List.foldr_cons, if_neg h.1]
      exact congrArg (c :: ·) (ih h.2)
  · intro pat d1 d2 d3 h
    unfold patternMatches at h ⊢
    rcases hpr : parseRx (jsReplaceStar pat) with _ | r
    · rw [hpr] at h
      simp at h
    · rw [hpr] at h
      have h' : testRx r d2.data = true := h
      show testRx r (d1 ++ d2 ++ d3).data = true
      rw [String.data_append, String.data_append, List.append_assoc]
      exact testRx_append_left r d1.data _ (testRx_append_right r d2.data d3.data h')

theorem c10_pattern_compilation_semantics_witness :
    ("ads.example.com".data.all (fun c => c != '*')) = true ∧
    jsReplaceStar "ads.example.com" = "ads.example.com" ∧
    patternMatches "ads" "ads" = true ∧
    patternMatches "ads" ("x." ++ "ads" ++ ".y") = true :=
  ⟨by decide,
   c10_pattern_compilation_semantics.2.1 "ads.example.com" (by decide),
   by decide,
   c10_pattern_compilation_semantics.2.2.2 "ads" "x." "ads" ".y" (by decide)⟩

end CookieGuardian
